import Mathlib

/-!
Verification of the TraceKit Go SDK snapshot client (`tracekit/client.go`).

This file gives a shallow embedding of the snapshot-client core: the
security scanner (`scanForSecurityIssues`), the breakpoint cache and its
replacement (`updateBreakpointCache`), the poll step
(`fetchActiveBreakpoints`), the auto-registration dedup step
(`autoRegisterBreakpoint`), the lifecycle (`Stop`) and the two capture
facades (`CheckAndCapture`, `CheckAndCaptureWithContext`).  Go maps are
modelled as association lists together with an explicit iteration order;
machine time is an integer parameter `now`; network and runtime inputs
(HTTP outcomes, caller file/line/function, stack trace, trace/span ids)
are explicit parameters.  Definitions follow the Go source line by line;
the theorems at the end settle the specification claims.
-/

/-! ## Character and string helpers (RE2 character classes) -/

/-- RE2 whitespace class: in Go's regexp, a backslash-s stands for the
set containing tab, newline, form feed, carriage return and space. -/
def isSpaceRE2 (c : Char) : Bool :=
  c == ' ' || c == '\t' || c == '\n' || c == '\x0c' || c == '\r'

/-- RE2 word-character class (used by word boundaries): letters, digits
and underscore. -/
def isWordChar (c : Char) : Bool :=
  c.isAlpha || c.isDigit || c == '_'

/-- Case-insensitive "the input starts with the pattern" over char lists. -/
def startsWithCI : List Char → List Char → Bool
  | [], _ => true
  | _ :: _, [] => false
  | p :: ps, c :: cs => (p.toLower == c.toLower) && startsWithCI ps cs

/-- Case-sensitive "the input starts with the pattern" over char lists. -/
def startsWithExact : List Char → List Char → Bool
  | [], _ => true
  | _ :: _, [] => false
  | p :: ps, c :: cs => (p == c) && startsWithExact ps cs

/-- Does `f` hold at some suffix position of the input (including the
empty suffix)?  This is the unanchored-search part of `regexp.Match`. -/
def anyPosition (f : List Char → Bool) : List Char → Bool
  | [] => f []
  | c :: cs => f (c :: cs) || anyPosition f cs

/-! ## The value-pattern detectors of `scanForSecurityIssues`
(client.go 419-424), each translated from its RE2 regular expression. -/

/-- Character class `[^\s"']` of the password regex. -/
def isPasswordValueChar (c : Char) : Bool :=
  !isSpaceRE2 c && c != '"' && c != '\''

/-- Character class `[A-Za-z0-9_-]` of the api-key regex. -/
def isApiKeyValueChar (c : Char) : Bool :=
  c.isAlpha || c.isDigit || c == '_' || c == '-'

/-- Common tail of the password and api-key regexes:
whitespace*, `=` or `:`, whitespace*, an optional quote, then at least
`minLen` characters of the value class.  (When the next character is a
quote the optional quote must consume it, because quotes are excluded
from both value classes.) -/
def assignTail (valueChar : Char → Bool) (minLen : Nat) (s : List Char) : Bool :=
  match s.dropWhile isSpaceRE2 with
  | [] => false
  | c :: rest =>
    (c == '=' || c == ':') &&
      (let r := rest.dropWhile isSpaceRE2
       let r2 := match r with
         | q :: rq => if q == '"' || q == '\'' then rq else r
         | [] => r
       minLen ≤ (r2.takeWhile valueChar).length)

/-- Match of the password regex at one position:
`(?i)(password|passwd|pwd)\s*[=:]\s*["']?[^\s"']{6,}`. -/
def matchPasswordAt (s : List Char) : Bool :=
  (startsWithCI "password".data s && assignTail isPasswordValueChar 6 (s.drop 8)) ||
  (startsWithCI "passwd".data s && assignTail isPasswordValueChar 6 (s.drop 6)) ||
  (startsWithCI "pwd".data s && assignTail isPasswordValueChar 6 (s.drop 3))

/-- The "password" value detector (client.go 420). -/
def passwordValuePattern (s : String) : Bool :=
  anyPosition matchPasswordAt s.data

/-- Match of the api-key regex at one position:
`(?i)(api[_-]?key|apikey)\s*[=:]\s*["']?[A-Za-z0-9_-]{20,}`.
The second alternative `apikey` is the first one with the optional
separator absent, so matching the first alternative suffices. -/
def matchApiKeyAt (s : List Char) : Bool :=
  startsWithCI "api".data s &&
    (match s.drop 3 with
     | [] => false
     | c :: r' =>
       if c == '_' || c == '-' then
         startsWithCI "key".data r' && assignTail isApiKeyValueChar 20 (r'.drop 3)
       else
         startsWithCI "key".data (c :: r') && assignTail isApiKeyValueChar 20 ((c :: r').drop 3))

/-- The "api_key" value detector (client.go 421). -/
def apiKeyValuePattern (s : String) : Bool :=
  anyPosition matchApiKeyAt s.data

/-- Match of the JWT regex at one position:
`eyJ[A-Za-z0-9_-]*\.eyJ[A-Za-z0-9_-]*\.[A-Za-z0-9_-]*` (case sensitive).
Because the dot is not in the segment class, each starred segment is the
maximal class run and the following dot is forced. -/
def matchJwtAt (s : List Char) : Bool :=
  startsWithExact "eyJ".data s &&
    (match (s.drop 3).dropWhile isApiKeyValueChar with
     | '.' :: r2 =>
       startsWithExact "eyJ".data r2 &&
         (match (r2.drop 3).dropWhile isApiKeyValueChar with
          | '.' :: _ => true
          | _ => false)
     | _ => false)

/-- The "jwt" value detector (client.go 422); its segment class
`[A-Za-z0-9_-]` coincides with the api-key value class. -/
def jwtValuePattern (s : String) : Bool :=
  anyPosition matchJwtAt s.data

/-- Word boundary after a match: end of input or a non-word character. -/
def nonWordAfter : List Char → Bool
  | [] => true
  | c :: _ => !isWordChar c

/-- Match of the credit-card regex body at one position:
`(?:4[0-9]{12}(?:[0-9]{3})?|5[1-5][0-9]{14})` followed by a word
boundary.  The Visa alternative backtracks between 13 and 16 digits. -/
def matchCreditCardBodyAt (s : List Char) : Bool :=
  match s with
  | '4' :: r =>
    ((r.take 12).length == 12) && (r.take 12).all Char.isDigit &&
      (nonWordAfter (r.drop 12) ||
        ((((r.drop 12).take 3).length == 3) && ((r.drop 12).take 3).all Char.isDigit &&
          nonWordAfter (r.drop 15)))
  | '5' :: c :: r =>
    (c == '1' || c == '2' || c == '3' || c == '4' || c == '5') &&
      ((r.take 14).length == 14) && (r.take 14).all Char.isDigit && nonWordAfter (r.drop 14)
  | _ => false

/-- Unanchored search for the credit-card regex, tracking the previous
character for the leading word boundary (the body starts with a digit,
so the boundary holds exactly when the previous character is absent or
is not a word character). -/
def creditCardSearch : Option Char → List Char → Bool
  | _, [] => false
  | prev, c :: cs =>
    ((match prev with
      | none => true
      | some p => !isWordChar p) && matchCreditCardBodyAt (c :: cs)) ||
      creditCardSearch (some c) cs

/-- The "credit_card" value detector (client.go 423):
`\b(?:4[0-9]{12}(?:[0-9]{3})?|5[1-5][0-9]{14})\b`. -/
def creditCardValuePattern (s : String) : Bool :=
  creditCardSearch none s.data

/-! ## The sensitive-name pattern (client.go 427) -/

/-- Case-insensitive substring test. -/
def containsCI (hay needle : String) : Bool :=
  anyPosition (startsWithCI needle.data) hay.data

/-- The keywords of the name regex `(?i)(password|secret|token|key|credential)`. -/
def sensitiveNameKeywords : List String :=
  ["password", "secret", "token", "key", "credential"]

/-- `sensitiveNamePattern.MatchString name` (client.go 435): the name
contains one of the keywords, case-insensitively. -/
def sensitiveNameMatch (name : String) : Bool :=
  sensitiveNameKeywords.any (fun k => containsCI name k)

/-! ## Variables, serialization, the scanner -/

/-- A dynamic Go value (`interface` value) as stored in a variables map:
the tagged union suggested by the data model, plus a constructor for
values on which `json.Marshal` fails (functions, channels, ...), which
carries the Go type name that `%T` would print. -/
inductive Value where
  | str (s : String)
  | int (n : Int)
  | bool (b : Bool)
  | jsonVal (encoded : String)
  | unserializable (typeName : String)
deriving DecidableEq

/-- Minimal JSON string escaping used by `json.Marshal` on strings. -/
def jsonEscape (s : String) : String :=
  ⟨s.data.foldr
    (fun c acc =>
      if c == '"' then '\\' :: '"' :: acc
      else if c == '\\' then '\\' :: '\\' :: acc
      else c :: acc) []⟩

/-- `json.Marshal value` (client.go 446): `none` models a marshal error. -/
def Value.serialize : Value → Option String
  | .str s => some ("\"" ++ jsonEscape s ++ "\"")
  | .int n => some (toString n)
  | .bool b => some (if b then "true" else "false")
  | .jsonVal encoded => some encoded
  | .unserializable _ => none

/-- The Go type name printed by the `%T` verb of `fmt.Sprintf` (client.go 448). -/
def Value.goTypeName : Value → String
  | .str _ => "string"
  | .int _ => "int"
  | .bool _ => "bool"
  | .jsonVal _ => "json"
  | .unserializable typeName => typeName

/-- A security finding (client.go 51-55).  The Go field `Variable` is a
Lean keyword, so it is called `varName` here. -/
structure SecurityFlag where
  type : String
  severity : String
  varName : String
deriving DecidableEq

/-- A named detector, as one entry of the `sensitivePatterns` map
(client.go 419-424). -/
abbrev Pattern := String × (String → Bool)

/-- The four value detectors.  In the source they live in a Go map, so
their iteration order is unspecified; functions that range over the map
take the order as a parameter and this list is one possible order. -/
def sensitivePatterns : List Pattern :=
  [("password", passwordValuePattern), ("api_key", apiKeyValuePattern),
   ("jwt", jwtValuePattern), ("credit_card", creditCardValuePattern)]

/-- Another possible iteration order of the same map: the first two
detectors transposed. -/
def sensitivePatternsAltOrder : List Pattern :=
  [("api_key", apiKeyValuePattern), ("password", passwordValuePattern),
   ("jwt", jwtValuePattern), ("credit_card", creditCardValuePattern)]

/-- `scanForSecurityIssues` (client.go 417-472).  The variables map is
an association list in its (unspecified) iteration order; `patterns` is
the (unspecified) iteration order of the detector map.  Per entry: a
sensitive name is redacted and flagged immediately; otherwise the value
is serialized — a marshal failure yields the `%T` placeholder and no
flag — and the first matching detector redacts and flags it. -/
def scanForSecurityIssues (patterns : List Pattern) :
    List (String × Value) → List (String × Value) × List SecurityFlag
  | [] => ([], [])
  | (name, value) :: rest =>
    let r := scanForSecurityIssues patterns rest
    if sensitiveNameMatch name then
      ((name, Value.str "[REDACTED]") :: r.1,
       { type := "sensitive_variable_name", severity := "medium", varName := name } :: r.2)
    else
      match Value.serialize value with
      | none => ((name, Value.str ("[" ++ Value.goTypeName value ++ "]")) :: r.1, r.2)
      | some serialized =>
        match patterns.find? (fun p => p.2 serialized) with
        | some p =>
          ((name, Value.str "[REDACTED]") :: r.1,
           { type := "sensitive_data_" ++ p.1, severity := "high", varName := name } :: r.2)
        | none => ((name, value) :: r.1, r.2)

/-! ## Breakpoint configurations and the cache (client.go 34-48, 156-181) -/

/-- `BreakpointConfig` (client.go 35-48).  Times are integers. -/
structure BreakpointConfig where
  id : String
  serviceName : String
  filePath : String
  functionName : String
  label : String
  lineNumber : Int
  condition : String
  maxCaptures : Int
  captureCount : Int
  expireAt : Option Int
  enabled : Bool
  metadata : List (String × Value)
deriving DecidableEq

/-- The location key `FilePath:LineNumber` (client.go 172, 186, 264). -/
def locationKey (filePath : String) (lineNumber : Int) : String :=
  filePath ++ ":" ++ toString lineNumber

/-- A config's location key. -/
def BreakpointConfig.lineKey (bp : BreakpointConfig) : String :=
  locationKey bp.filePath bp.lineNumber

/-- A config's label key `FunctionName:Label` (client.go 167). -/
def BreakpointConfig.labelKey (bp : BreakpointConfig) : String :=
  bp.functionName ++ ":" ++ bp.label

/-- Lookup in a Go map modelled as an association list. -/
def mapLookup (m : List (String × α)) (k : String) : Option α :=
  (m.find? (fun p => p.1 == k)).map (fun p => p.2)

/-- Assignment `m[k] = v` in a Go map modelled as an association list:
replace the binding if the key is present, otherwise append it. -/
def mapInsert : List (String × α) → String → α → List (String × α)
  | [], k, v => [(k, v)]
  | p :: rest, k, v => if p.1 == k then (k, v) :: rest else p :: mapInsert rest k v

/-- One iteration of the cache-building loop (client.go 162-174): insert
under the label key when both label and function name are non-empty,
then insert under the location key. -/
def cacheStep (cache : List (String × BreakpointConfig)) (bp : BreakpointConfig) :
    List (String × BreakpointConfig) :=
  let c1 := if bp.label != "" && bp.functionName != "" then mapInsert cache bp.labelKey bp else cache
  mapInsert c1 bp.lineKey bp

/-- `updateBreakpointCache` (client.go 156-181): build a brand-new map
from the fetched configs; the caller swaps it in under the write lock. -/
def updateBreakpointCache (breakpoints : List BreakpointConfig) :
    List (String × BreakpointConfig) :=
  breakpoints.foldl cacheStep []

/-- The cache keys a config generates during `updateBreakpointCache`. -/
def BreakpointConfig.cacheKeys (bp : BreakpointConfig) : List String :=
  bp.lineKey :: (if bp.label != "" && bp.functionName != "" then [bp.labelKey] else [])

/-! ## Client state and lifecycle (client.go 20-32, 72-95) -/

/-- The mutable state of a `SnapshotClient` (client.go 20-32).  The stop
channel is modelled by its closed flag; the HTTP client is external. -/
structure ClientState where
  apiKey : String
  baseURL : String
  serviceName : String
  stopChanClosed : Bool
  breakpointsCache : List (String × BreakpointConfig)
  lastFetch : Int
  registrationCache : List String
deriving DecidableEq

/-- `NewSnapshotClient` (client.go 73-83): open stop channel, empty caches. -/
def NewSnapshotClient (apiKey baseURL serviceName : String) : ClientState :=
  { apiKey := apiKey, baseURL := baseURL, serviceName := serviceName,
    stopChanClosed := false, breakpointsCache := [], lastFetch := 0,
    registrationCache := [] }

/-- Go's `close(ch)` on a channel: closing an already-closed channel is
a runtime panic, modelled as the error case. -/
def goChannelClose (alreadyClosed : Bool) : Except String Bool :=
  if alreadyClosed then Except.error "close of closed channel"
  else Except.ok true

/-- `Stop` (client.go 92-95): `close(c.stopChan)` with no guard, so the
result is a panic when the channel is already closed. -/
def Stop (c : ClientState) : Except String ClientState :=
  match goChannelClose c.stopChanClosed with
  | Except.error e => Except.error e
  | Except.ok _ => Except.ok { c with stopChanClosed := true }

/-! ## The poll step (client.go 119-153) -/

/-- What the backend interaction of one `fetchActiveBreakpoints` run can
yield, as seen by the client code: a request-build error, a transport
error, or a status code together with the body-decode outcome. -/
inductive BodyParse where
  | decodeError
  | decoded (breakpoints : List BreakpointConfig)
deriving DecidableEq

inductive FetchOutcome where
  | requestBuildError
  | transportError
  | httpStatus (code : Int) (body : BodyParse)
deriving DecidableEq

/-- `fetchActiveBreakpoints` (client.go 120-153): any failure returns an
error before the cache is touched; only a decoded 200 response replaces
the cache and updates `lastFetch`. -/
def fetchActiveBreakpoints (c : ClientState) (outcome : FetchOutcome) (now : Int) :
    ClientState × Option String :=
  match outcome with
  | FetchOutcome.requestBuildError => (c, some "request build error")
  | FetchOutcome.transportError => (c, some "transport error")
  | FetchOutcome.httpStatus code body =>
    if code ≠ 200 then (c, some ("unexpected status code: " ++ toString code))
    else
      match body with
      | BodyParse.decodeError => (c, some "decode error")
      | BodyParse.decoded bps =>
        ({ c with breakpointsCache := updateBreakpointCache bps, lastFetch := now }, none)

/-! ## Auto-registration (client.go 322-369) -/

/-- The locked check-and-mark of `autoRegisterBreakpoint` (client.go
328-334), which the mutex makes atomic: if the key is marked, return
with no I/O; otherwise mark it (before any network call) and launch the
registration POST.  The boolean reports whether the POST is launched.
The POST goroutine (client.go 337-368) never writes `registrationCache`,
so its outcome does not appear in the state transition. -/
def autoRegisterMark (registrationCache : List String) (regKey : String) :
    List String × Bool :=
  if registrationCache.contains regKey then (registrationCache, false)
  else (regKey :: registrationCache, true)

/-- `autoRegisterBreakpoint` (client.go 323-334): registration key is
`funcName:label`. -/
def autoRegisterBreakpoint (registrationCache : List String) (funcName label : String) :
    List String × Bool :=
  autoRegisterMark registrationCache (funcName ++ ":" ++ label)

/-- A serialized interleaving of register calls (the mutex serializes
the check-and-mark steps of concurrent calls): fold the steps over the
key sequence, collecting the keys for which a POST was launched. -/
def autoRegisterRun : List String → List String → List String × List String
  | cache, [] => (cache, [])
  | cache, k :: ks =>
    let step := autoRegisterMark cache k
    let rest := autoRegisterRun step.1 ks
    (rest.1, (if step.2 then [k] else []) ++ rest.2)

/-! ## Snapshots and the capture facades (client.go 57-70, 183-320) -/

/-- `Snapshot` (client.go 58-70).  The Go field `Variables` is a Lean
keyword, so it is called `vars` here. -/
structure Snapshot where
  breakpointId : String
  serviceName : String
  filePath : String
  lineNumber : Int
  vars : List (String × Value)
  securityFlags : List SecurityFlag
  stackTrace : String
  traceId : String
  spanId : String
  requestContext : List (String × Value)
  capturedAt : Int
deriving DecidableEq

/-- The expiry gate (client.go 194, 274): `time.Now().After(*ExpireAt)`. -/
def isExpired (bp : BreakpointConfig) (now : Int) : Bool :=
  match bp.expireAt with
  | some t => decide (t < now)
  | none => false

/-- The count gate (client.go 199, 279):
`bp.MaxCaptures > 0 && bp.CaptureCount >= bp.MaxCaptures`. -/
def maxCapturesReached (bp : BreakpointConfig) : Bool :=
  decide (0 < bp.maxCaptures) && decide (bp.maxCaptures ≤ bp.captureCount)

/-- `CheckAndCapture` (client.go 184-227).  The stack trace and the
clock are ambient inputs.  A returned snapshot models the asynchronous
dispatch `go c.captureSnapshot(snapshot)`; `none` means no snapshot is
built.  Note: the source reads the cache with no lock here, and checks
existence, expiry and capture count — but not `Enabled`. -/
def CheckAndCapture (c : ClientState) (patterns : List Pattern) (filePath : String)
    (lineNumber : Int) (vars : List (String × Value)) (now : Int)
    (stackTrace : String) : Option Snapshot :=
  match mapLookup c.breakpointsCache (locationKey filePath lineNumber) with
  | none => none
  | some bp =>
    if isExpired bp now then none
    else if maxCapturesReached bp then none
    else
      let scanned := scanForSecurityIssues patterns vars
      some { breakpointId := bp.id, serviceName := c.serviceName, filePath := filePath,
             lineNumber := lineNumber, vars := scanned.1, securityFlags := scanned.2,
             stackTrace := stackTrace, traceId := "", spanId := "", requestContext := [],
             capturedAt := now }

/-- The Registry lookup of `CheckAndCaptureWithContext` (client.go
258-266): label key first, then the location key. -/
def lookupBreakpoint (cache : List (String × BreakpointConfig)) (labelKey lineKey : String) :
    Option BreakpointConfig :=
  match mapLookup cache labelKey with
  | some bp => some bp
  | none => mapLookup cache lineKey

/-- Label defaulting (client.go 244-248): an empty label becomes the
last dot-separated part of the function name. -/
def deriveLabel (funcName labelArg : String) : String :=
  if labelArg == "" then (funcName.splitOn ".").getLastD "" else labelArg

/-- `CheckAndCaptureWithContext` (client.go 232-320).  The caller's
file, line and function (from `runtime.Caller`), the stack trace, the
trace/span ids and the request context are ambient inputs.  Returns the
state after the registration mark, whether a registration POST was
launched, and the dispatched snapshot if any.  Unlike `CheckAndCapture`
this variant takes the read lock for its lookup and does check
`bp.Enabled`. -/
def CheckAndCaptureWithContext (c : ClientState) (patterns : List Pattern)
    (file : String) (line : Int) (funcName labelArg : String)
    (vars : List (String × Value)) (now : Int)
    (stackTrace traceId spanId : String) (requestContext : List (String × Value)) :
    ClientState × Bool × Option Snapshot :=
  let label := deriveLabel funcName labelArg
  let reg := autoRegisterBreakpoint c.registrationCache funcName label
  let c' := { c with registrationCache := reg.1 }
  match lookupBreakpoint c'.breakpointsCache (funcName ++ ":" ++ label)
      (locationKey file line) with
  | none => (c', reg.2, none)
  | some bp =>
    if !bp.enabled then (c', reg.2, none)
    else if isExpired bp now then (c', reg.2, none)
    else if maxCapturesReached bp then (c', reg.2, none)
    else
      let scanned := scanForSecurityIssues patterns vars
      (c', reg.2,
       some { breakpointId := bp.id, serviceName := c'.serviceName, filePath := file,
              lineNumber := line, vars := scanned.1, securityFlags := scanned.2,
              stackTrace := stackTrace, traceId := traceId, spanId := spanId,
              requestContext := requestContext, capturedAt := now })

/-- Repeated invocation of `CheckAndCapture`: the function writes no
client state, so every repetition sees the same state. -/
def repeatCheckAndCapture (c : ClientState) (patterns : List Pattern) (filePath : String)
    (lineNumber : Int) (vars : List (String × Value)) (now : Int)
    (stackTrace : String) : Nat → List (Option Snapshot)
  | 0 => []
  | n + 1 =>
    CheckAndCapture c patterns filePath lineNumber vars now stackTrace ::
      repeatCheckAndCapture c patterns filePath lineNumber vars now stackTrace n

/-- Repeated invocation of `CheckAndCaptureWithContext`, threading the
state (the registration mark) through the calls. -/
def repeatCheckAndCaptureWithContext (patterns : List Pattern) (file : String) (line : Int)
    (funcName labelArg : String) (vars : List (String × Value)) (now : Int)
    (stackTrace traceId spanId : String) (requestContext : List (String × Value)) :
    ClientState → Nat → ClientState × List (Option Snapshot)
  | c, 0 => (c, [])
  | c, n + 1 =>
    let r := CheckAndCaptureWithContext c patterns file line funcName labelArg vars now
      stackTrace traceId spanId requestContext
    let rest := repeatCheckAndCaptureWithContext patterns file line funcName labelArg vars
      now stackTrace traceId spanId requestContext r.1 n
    (rest.1, r.2.2 :: rest.2)

/-! ## Lock-usage traces of the cache accesses (for the locking claim) -/

/-- The primitive lock and cache operations appearing in the source. -/
inductive LockOp where
  | rLockAcquire
  | rLockRelease
  | lockAcquire
  | lockRelease
  | cacheRead
  | cacheWrite
deriving DecidableEq

/-- The operation sequence of the cache lookup in `CheckAndCapture`
(client.go 185-191): a single map read, with no lock acquired. -/
def checkAndCaptureLookupOps : List LockOp :=
  [LockOp.cacheRead]

/-- The operation sequence of the cache lookup in
`CheckAndCaptureWithContext` (client.go 254-267): `mu.RLock()`, the
label-key read, the location-key read when the first misses, then
`mu.RUnlock()`. -/
def checkAndCaptureWithContextLookupOps (labelKeyHit : Bool) : List LockOp :=
  [LockOp.rLockAcquire, LockOp.cacheRead] ++
    (if labelKeyHit then [] else [LockOp.cacheRead]) ++ [LockOp.rLockRelease]

/-- The operation sequence of `updateBreakpointCache` (client.go
157-176): the new map is built privately and swapped in under the write
lock, a single write. -/
def updateBreakpointCacheOps : List LockOp :=
  [LockOp.lockAcquire, LockOp.cacheWrite, LockOp.lockRelease]

/-! ## Concrete instances used by witnesses and counterexamples -/

/-- A disabled breakpoint config present in the Registry. -/
def bpDisabled : BreakpointConfig :=
  { id := "bp-1", serviceName := "svc", filePath := "payment.go", functionName := "main.pay",
    label := "L", lineNumber := 42, condition := "", maxCaptures := 0, captureCount := 0,
    expireAt := none, enabled := false, metadata := [] }

/-- A client whose cache holds only `bpDisabled`. -/
def stDisabled : ClientState :=
  { NewSnapshotClient "key" "http://api" "svc" with
    breakpointsCache := updateBreakpointCache [bpDisabled] }

/-- A labelled config, and an unlabelled one at the same file and line. -/
def bpLabelled : BreakpointConfig :=
  { id := "bp-A", serviceName := "svc", filePath := "a.go", functionName := "F",
    label := "L", lineNumber := 1, condition := "", maxCaptures := 0, captureCount := 0,
    expireAt := none, enabled := true, metadata := [] }

def bpUnlabelled : BreakpointConfig :=
  { id := "bp-B", serviceName := "svc", filePath := "a.go", functionName := "",
    label := "", lineNumber := 1, condition := "", maxCaptures := 0, captureCount := 0,
    expireAt := none, enabled := true, metadata := [] }

/-- An enabled, unexpired config whose capture budget is exhausted. -/
def bpExhausted : BreakpointConfig :=
  { id := "bp-2", serviceName := "svc", filePath := "payment.go", functionName := "main.pay",
    label := "L", lineNumber := 42, condition := "", maxCaptures := 3, captureCount := 5,
    expireAt := none, enabled := true, metadata := [] }

/-- A client whose cache holds only `bpExhausted`. -/
def stExhausted : ClientState :=
  { NewSnapshotClient "key" "http://api" "svc" with
    breakpointsCache := updateBreakpointCache [bpExhausted] }

/-- A string value that matches both the password detector and the
api-key detector. -/
def doubleSecret : String := "apikey=abcdefghij0123456789 pwd=secret1"

/-! ## Helper lemmas: association-list maps and the cache build -/

theorem mapLookup_nil (k : String) : mapLookup ([] : List (String × α)) k = none := rfl

theorem mapLookup_cons (p : String × α) (m : List (String × α)) (k : String) :
    mapLookup (p :: m) k = if p.1 == k then some p.2 else mapLookup m k := by
  by_cases h : p.1 == k
  · simp [mapLookup, List.find?_cons_of_pos, h]
  · simp only [Bool.not_eq_true] at h
    simp [mapLookup, List.find?, h]

theorem mapInsert_lookup_self (m : List (String × α)) (k : String) (v : α) :
    mapLookup (mapInsert m k v) k = some v := by
  induction m with
  | nil => simp [mapInsert, mapLookup_cons]
  | cons p rest ih =>
    by_cases h : p.1 == k
    · simp [mapInsert, h, mapLookup_cons]
    · simp only [Bool.not_eq_true] at h
      simp [mapInsert, h, mapLookup_cons, ih]

theorem mapInsert_lookup_ne (m : List (String × α)) (k v) (k' : String) (hne : k' ≠ k) :
    mapLookup (mapInsert m k v) k' = mapLookup m k' := by
  have hkk' : (k == k') = false := by
    simp only [beq_eq_false_iff_ne, ne_eq]
    exact fun h => hne h.symm
  induction m with
  | nil => simp [mapInsert, mapLookup_cons, hkk']
  | cons p rest ih =>
    by_cases h : p.1 == k
    · have hp : (p.1 == k') = false := by
        simp only [beq_iff_eq] at h
        simp [beq_eq_false_iff_ne, h]
        exact fun hc => hne hc.symm
      simp [mapInsert, h, mapLookup_cons, hkk', hp]
    · simp only [Bool.not_eq_true] at h
      simp only [mapInsert, h, if_neg, Bool.false_eq_true, not_false_eq_true]
      rw [mapLookup_cons, mapLookup_cons, ih]

theorem cacheStep_lookup (cache : List (String × BreakpointConfig)) (bp : BreakpointConfig)
    (k : String) :
    mapLookup (cacheStep cache bp) k =
      if k = bp.lineKey then some bp
      else if (bp.label != "" && bp.functionName != "") = true ∧ k = bp.labelKey then some bp
      else mapLookup cache k := by
  unfold cacheStep
  by_cases hline : k = bp.lineKey
  · subst hline
    simp [mapInsert_lookup_self]
  · rw [mapInsert_lookup_ne _ _ _ _ hline]
    by_cases hcond : (bp.label != "" && bp.functionName != "") = true
    · by_cases hlab : k = bp.labelKey
      · subst hlab
        simp [hcond, hline, mapInsert_lookup_self]
      · simp [hcond, hline, hlab, mapInsert_lookup_ne _ _ _ _ hlab]
    · simp only [Bool.not_eq_true] at hcond
      simp [hcond, hline]

theorem foldl_cacheStep_lookup_of_fresh (bps : List BreakpointConfig) (k : String)
    (h : ∀ b ∈ bps, k ∉ b.cacheKeys) (cache : List (String × BreakpointConfig)) :
    mapLookup (bps.foldl cacheStep cache) k = mapLookup cache k := by
  induction bps generalizing cache with
  | nil => rfl
  | cons b bs ih =>
    have hb := h b (List.mem_cons_self b bs)
    have hbs : ∀ b' ∈ bs, k ∉ b'.cacheKeys := fun b' hb' => h b' (List.mem_cons_of_mem b hb')
    simp only [List.foldl_cons]
    rw [ih hbs, cacheStep_lookup]
    simp only [BreakpointConfig.cacheKeys, List.mem_cons] at hb
    push_neg at hb
    obtain ⟨h1, h2⟩ := hb
    rw [if_neg h1, if_neg]
    rintro ⟨hcond, hlab⟩
    rw [hcond] at h2
    simp at h2
    exact h2 hlab

theorem foldl_cacheStep_lookup_mem (bps : List BreakpointConfig)
    (cache : List (String × BreakpointConfig)) (k : String) (v : BreakpointConfig)
    (h : mapLookup (bps.foldl cacheStep cache) k = some v) :
    (v ∈ bps ∧ k ∈ v.cacheKeys) ∨ mapLookup cache k = some v := by
  induction bps generalizing cache with
  | nil => exact Or.inr h
  | cons b bs ih =>
    simp only [List.foldl_cons] at h
    rcases ih (cacheStep cache b) h with hmem | hbase
    · exact Or.inl ⟨List.mem_cons_of_mem b hmem.1, hmem.2⟩
    · rw [cacheStep_lookup] at hbase
      by_cases hline : k = b.lineKey
      · rw [if_pos hline] at hbase
        obtain rfl : b = v := by injection hbase
        exact Or.inl ⟨List.mem_cons_self _ _, by simp [BreakpointConfig.cacheKeys, hline]⟩
      · rw [if_neg hline] at hbase
        by_cases hcond : (b.label != "" && b.functionName != "") = true ∧ k = b.labelKey
        · rw [if_pos hcond] at hbase
          obtain rfl : b = v := by injection hbase
          exact Or.inl ⟨List.mem_cons_self _ _,
            by simp [BreakpointConfig.cacheKeys, hcond.1, hcond.2]⟩
        · rw [if_neg hcond] at hbase
          exact Or.inr hbase

/-! ## Helper lemmas: the security scanner -/

theorem scan_nil (patterns : List Pattern) :
    scanForSecurityIssues patterns [] = ([], []) := rfl

theorem scan_cons_nameMatch (patterns : List Pattern) (name : String) (value : Value)
    (rest : List (String × Value)) (h : sensitiveNameMatch name = true) :
    scanForSecurityIssues patterns ((name, value) :: rest) =
      ((name, Value.str "[REDACTED]") :: (scanForSecurityIssues patterns rest).1,
       { type := "sensitive_variable_name", severity := "medium", varName := name } ::
         (scanForSecurityIssues patterns rest).2) := by
  simp [scanForSecurityIssues, h]

theorem scan_cons_unserializable (patterns : List Pattern) (name : String) (value : Value)
    (rest : List (String × Value)) (h : sensitiveNameMatch name = false)
    (hser : Value.serialize value = none) :
    scanForSecurityIssues patterns ((name, value) :: rest) =
      ((name, Value.str ("[" ++ Value.goTypeName value ++ "]")) ::
         (scanForSecurityIssues patterns rest).1,
       (scanForSecurityIssues patterns rest).2) := by
  simp [scanForSecurityIssues, h, hser]

theorem scan_cons_valueFlag (patterns : List Pattern) (name : String) (value : Value)
    (rest : List (String × Value)) (ser : String) (p : Pattern)
    (h : sensitiveNameMatch name = false) (hser : Value.serialize value = some ser)
    (hfind : patterns.find? (fun q => q.2 ser) = some p) :
    scanForSecurityIssues patterns ((name, value) :: rest) =
      ((name, Value.str "[REDACTED]") :: (scanForSecurityIssues patterns rest).1,
       { type := "sensitive_data_" ++ p.1, severity := "high", varName := name } ::
         (scanForSecurityIssues patterns rest).2) := by
  simp [scanForSecurityIssues, h, hser, hfind]

theorem scan_cons_clean (patterns : List Pattern) (name : String) (value : Value)
    (rest : List (String × Value)) (ser : String)
    (h : sensitiveNameMatch name = false) (hser : Value.serialize value = some ser)
    (hfind : patterns.find? (fun q => q.2 ser) = none) :
    scanForSecurityIssues patterns ((name, value) :: rest) =
      ((name, value) :: (scanForSecurityIssues patterns rest).1,
       (scanForSecurityIssues patterns rest).2) := by
  simp [scanForSecurityIssues, h, hser, hfind]

/-- Each entry contributes its own name to the sanitized list and at
most one flag, carrying its own name. -/
theorem scan_cons_shape (patterns : List Pattern) (name : String) (value : Value)
    (rest : List (String × Value)) :
    ∃ x F, scanForSecurityIssues patterns ((name, value) :: rest) =
      ((name, x) :: (scanForSecurityIssues patterns rest).1,
       F ++ (scanForSecurityIssues patterns rest).2) ∧
      ∀ f ∈ F, f.varName = name := by
  by_cases h : sensitiveNameMatch name
  · exact ⟨Value.str "[REDACTED]",
      [{ type := "sensitive_variable_name", severity := "medium", varName := name }],
      scan_cons_nameMatch patterns name value rest h, by simp⟩
  · simp only [Bool.not_eq_true] at h
    cases hser : Value.serialize value with
    | none =>
      exact ⟨Value.str ("[" ++ Value.goTypeName value ++ "]"), [],
        by rw [scan_cons_unserializable patterns name value rest h hser]; simp, by simp⟩
    | some ser =>
      cases hfind : patterns.find? (fun q => q.2 ser) with
      | none =>
        exact ⟨value, [], by rw [scan_cons_clean patterns name value rest ser h hser hfind]; simp,
          by simp⟩
      | some p =>
        exact ⟨Value.str "[REDACTED]",
          [{ type := "sensitive_data_" ++ p.1, severity := "high", varName := name }],
          scan_cons_valueFlag patterns name value rest ser p h hser hfind, by simp⟩

/-- The names of the emitted flags form a sublist of the variable names. -/
theorem scan_flag_names_sublist (patterns : List Pattern) (l : List (String × Value)) :
    ((scanForSecurityIssues patterns l).2.map SecurityFlag.varName).Sublist
      (l.map Prod.fst) := by
  induction l with
  | nil => simp [scan_nil]
  | cons hd tl ih =>
    obtain ⟨name, value⟩ := hd
    by_cases h : sensitiveNameMatch name
    · rw [scan_cons_nameMatch patterns name value tl h]
      simpa using ih.cons₂ name
    · simp only [Bool.not_eq_true] at h
      cases hser : Value.serialize value with
      | none =>
        rw [scan_cons_unserializable patterns name value tl h hser]
        simpa using ih.cons name
      | some ser =>
        cases hfind : patterns.find? (fun q => q.2 ser) with
        | none =>
          rw [scan_cons_clean patterns name value tl ser h hser hfind]
          simpa using ih.cons name
        | some p =>
          rw [scan_cons_valueFlag patterns name value tl ser p h hser hfind]
          simpa using ih.cons₂ name

/-- Every emitted flag names one of the variables. -/
theorem scan_flag_name_mem (patterns : List Pattern) (l : List (String × Value))
    (f : SecurityFlag) (hf : f ∈ (scanForSecurityIssues patterns l).2) :
    f.varName ∈ l.map Prod.fst := by
  induction l with
  | nil => simp [scan_nil] at hf
  | cons hd tl ih =>
    obtain ⟨name, value⟩ := hd
    obtain ⟨x, F, heq, hF⟩ := scan_cons_shape patterns name value tl
    rw [heq] at hf
    simp only [List.mem_append] at hf
    rcases hf with hf | hf
    · simp [hF f hf]
    · simp [ih hf]

/-- The first cache entry for a sensitively-named variable is redacted,
whatever its value (the name branch never inspects the value). -/
theorem scan_lookup_redacted (patterns : List Pattern) (vars : List (String × Value))
    (name : String) (value : Value) (hmem : (name, value) ∈ vars)
    (hmatch : sensitiveNameMatch name = true) :
    mapLookup (scanForSecurityIssues patterns vars).1 name = some (Value.str "[REDACTED]") := by
  induction vars with
  | nil => simp at hmem
  | cons hd tl ih =>
    obtain ⟨n₀, v₀⟩ := hd
    by_cases hn : n₀ = name
    · subst hn
      rw [scan_cons_nameMatch patterns n₀ v₀ tl hmatch, mapLookup_cons]
      simp
    · obtain ⟨x, F, heq, _⟩ := scan_cons_shape patterns n₀ v₀ tl
      rw [heq, mapLookup_cons, if_neg (by simpa using hn)]
      rcases List.mem_cons.mp hmem with heqhd | hmem'
      · exact absurd (congrArg Prod.fst heqhd).symm hn
      · exact ih hmem'

/-- A sensitively-named variable is flagged `sensitive_variable_name`/`medium`. -/
theorem scan_flag_of_nameMatch (patterns : List Pattern) (vars : List (String × Value))
    (name : String) (value : Value) (hmem : (name, value) ∈ vars)
    (hmatch : sensitiveNameMatch name = true) :
    ({ type := "sensitive_variable_name", severity := "medium", varName := name } :
      SecurityFlag) ∈ (scanForSecurityIssues patterns vars).2 := by
  induction vars with
  | nil => simp at hmem
  | cons hd tl ih =>
    obtain ⟨n₀, v₀⟩ := hd
    by_cases hn : n₀ = name
    · subst hn
      rw [scan_cons_nameMatch patterns n₀ v₀ tl hmatch]
      exact List.mem_cons_self _ _
    · obtain ⟨x, F, heq, _⟩ := scan_cons_shape patterns n₀ v₀ tl
      rw [heq]
      rcases List.mem_cons.mp hmem with heqhd | hmem'
      · exact absurd (congrArg Prod.fst heqhd).symm hn
      · exact List.mem_append_right F (ih hmem')

/-- Name match takes priority: any flag carrying a sensitively-matching
name is the name flag, never a value flag. -/
theorem scan_flag_unique_of_nameMatch (patterns : List Pattern) (vars : List (String × Value))
    (name : String) (hmatch : sensitiveNameMatch name = true) :
    ∀ f ∈ (scanForSecurityIssues patterns vars).2, f.varName = name →
      f = { type := "sensitive_variable_name", severity := "medium", varName := name } := by
  induction vars with
  | nil => simp [scan_nil]
  | cons hd tl ih =>
    obtain ⟨n₀, v₀⟩ := hd
    intro f hf hfname
    by_cases h0 : sensitiveNameMatch n₀
    · rw [scan_cons_nameMatch patterns n₀ v₀ tl h0] at hf
      rcases List.mem_cons.mp hf with rfl | hf'
      · simp only at hfname
        rw [hfname]
      · exact ih f hf' hfname
    · simp only [Bool.not_eq_true] at h0
      cases hser : Value.serialize v₀ with
      | none =>
        rw [scan_cons_unserializable patterns n₀ v₀ tl h0 hser] at hf
        exact ih f hf hfname
      | some ser =>
        cases hfind : patterns.find? (fun q => q.2 ser) with
        | none =>
          rw [scan_cons_clean patterns n₀ v₀ tl ser h0 hser hfind] at hf
          exact ih f hf hfname
        | some p =>
          rw [scan_cons_valueFlag patterns n₀ v₀ tl ser p h0 hser hfind] at hf
          rcases List.mem_cons.mp hf with rfl | hf'
          · simp only at hfname
            rw [hfname] at h0
            rw [hmatch] at h0
            simp at h0
          · exact ih f hf' hfname

/-- With pairwise-distinct variable names, each variable receives at
most one flag. -/
theorem scan_flag_count_le_one (patterns : List Pattern) (vars : List (String × Value))
    (hnodup : (vars.map Prod.fst).Nodup) (n : String) :
    ((scanForSecurityIssues patterns vars).2.filter
      (fun f => f.varName == n)).length ≤ 1 := by
  have hsub := scan_flag_names_sublist patterns vars
  have h1 : ((scanForSecurityIssues patterns vars).2.filter
      (fun f => f.varName == n)).length =
      ((scanForSecurityIssues patterns vars).2.map SecurityFlag.varName).count n := by
    rw [List.count_eq_countP, List.countP_map, ← List.countP_eq_length_filter]
    rfl
  rw [h1]
  calc ((scanForSecurityIssues patterns vars).2.map SecurityFlag.varName).count n
      ≤ (vars.map Prod.fst).count n := hsub.count_le n
    _ ≤ 1 := List.nodup_iff_count_le_one.mp hnodup n

/-- The scanner is compositional over concatenation of the variables list. -/
theorem scan_append (patterns : List Pattern) (l1 l2 : List (String × Value)) :
    scanForSecurityIssues patterns (l1 ++ l2) =
      ((scanForSecurityIssues patterns l1).1 ++ (scanForSecurityIssues patterns l2).1,
       (scanForSecurityIssues patterns l1).2 ++ (scanForSecurityIssues patterns l2).2) := by
  induction l1 with
  | nil => simp [scan_nil]
  | cons hd tl ih =>
    obtain ⟨name, value⟩ := hd
    by_cases h : sensitiveNameMatch name
    · rw [List.cons_append, scan_cons_nameMatch patterns name value (tl ++ l2) h,
        scan_cons_nameMatch patterns name value tl h, ih]
      simp
    · simp only [Bool.not_eq_true] at h
      cases hser : Value.serialize value with
      | none =>
        rw [List.cons_append, scan_cons_unserializable patterns name value (tl ++ l2) h hser,
          scan_cons_unserializable patterns name value tl h hser, ih]
        simp
      | some ser =>
        cases hfind : patterns.find? (fun q => q.2 ser) with
        | none =>
          rw [List.cons_append, scan_cons_clean patterns name value (tl ++ l2) ser h hser hfind,
            scan_cons_clean patterns name value tl ser h hser hfind, ih]
          simp
        | some p =>
          rw [List.cons_append, scan_cons_valueFlag patterns name value (tl ++ l2) ser p h hser
            hfind, scan_cons_valueFlag patterns name value tl ser p h hser hfind, ih]
          simp

/-! ## Helper lemmas: the capture facades -/

/-- `CheckAndCaptureWithContext` only writes the registration cache:
the breakpoint cache of the returned state is the caller's. -/
theorem withContext_preserves_breakpointsCache (c : ClientState) (patterns : List Pattern)
    (file : String) (line : Int) (funcName labelArg : String)
    (vars : List (String × Value)) (now : Int) (stackTrace traceId spanId : String)
    (requestContext : List (String × Value)) :
    ((CheckAndCaptureWithContext c patterns file line funcName labelArg vars now stackTrace
      traceId spanId requestContext).1).breakpointsCache = c.breakpointsCache := by
  unfold CheckAndCaptureWithContext
  rcases h : lookupBreakpoint
      { c with
        registrationCache :=
          (autoRegisterBreakpoint c.registrationCache funcName
            (deriveLabel funcName labelArg)).1 }.breakpointsCache
      (funcName ++ ":" ++ deriveLabel funcName labelArg) (locationKey file line) with _ | bp
  · simp [h]
  · simp only [h]
    by_cases he : bp.enabled <;> by_cases hexp : isExpired bp now <;>
      by_cases hmax : maxCapturesReached bp <;> simp [he, hexp, hmax]

/-- When the looked-up config's capture budget is exhausted, the
context-aware facade dispatches nothing. -/
theorem withContext_none_of_maxCaptures (c : ClientState) (patterns : List Pattern)
    (file : String) (line : Int) (funcName labelArg : String)
    (vars : List (String × Value)) (now : Int) (stackTrace traceId spanId : String)
    (requestContext : List (String × Value)) (bp : BreakpointConfig)
    (hlook : lookupBreakpoint c.breakpointsCache
      (funcName ++ ":" ++ deriveLabel funcName labelArg) (locationKey file line) = some bp)
    (hmax : maxCapturesReached bp = true) :
    (CheckAndCaptureWithContext c patterns file line funcName labelArg vars now stackTrace
      traceId spanId requestContext).2.2 = none := by
  unfold CheckAndCaptureWithContext
  have hlook' : lookupBreakpoint
      { c with
        registrationCache :=
          (autoRegisterBreakpoint c.registrationCache funcName
            (deriveLabel funcName labelArg)).1 }.breakpointsCache
      (funcName ++ ":" ++ deriveLabel funcName labelArg) (locationKey file line) = some bp :=
    hlook
  simp only [hlook']
  by_cases he : bp.enabled <;> by_cases hexp : isExpired bp now <;> simp [he, hexp, hmax]

/-- When the looked-up config's capture budget is exhausted,
`CheckAndCapture` dispatches nothing. -/
theorem checkAndCapture_none_of_maxCaptures (c : ClientState) (patterns : List Pattern)
    (filePath : String) (lineNumber : Int) (vars : List (String × Value)) (now : Int)
    (stackTrace : String) (bp : BreakpointConfig)
    (hlook : mapLookup c.breakpointsCache (locationKey filePath lineNumber) = some bp)
    (hmax : maxCapturesReached bp = true) :
    CheckAndCapture c patterns filePath lineNumber vars now stackTrace = none := by
  unfold CheckAndCapture
  simp only [hlook]
  by_cases hexp : isExpired bp now <;> simp [hexp, hmax]

/-- Count-gate suppression of `CheckAndCapture` persists over any number
of repetitions (the call writes no state). -/
theorem repeatCheckAndCapture_all_none (c : ClientState) (patterns : List Pattern)
    (filePath : String) (lineNumber : Int) (vars : List (String × Value)) (now : Int)
    (stackTrace : String) (bp : BreakpointConfig)
    (hlook : mapLookup c.breakpointsCache (locationKey filePath lineNumber) = some bp)
    (hmax : maxCapturesReached bp = true) (n : Nat) :
    ∀ o ∈ repeatCheckAndCapture c patterns filePath lineNumber vars now stackTrace n,
      o = none := by
  induction n with
  | zero => simp [repeatCheckAndCapture]
  | succ m ih =>
    intro o ho
    rcases List.mem_cons.mp ho with rfl | ho'
    · exact checkAndCapture_none_of_maxCaptures c patterns filePath lineNumber vars now
        stackTrace bp hlook hmax
    · exact ih o ho'

/-- Count-gate suppression of `CheckAndCaptureWithContext` persists over
any number of repetitions: the call only marks the registration cache,
so every repetition sees the same breakpoint cache. -/
theorem repeatWithContext_all_none (patterns : List Pattern) (file : String) (line : Int)
    (funcName labelArg : String) (vars : List (String × Value)) (now : Int)
    (stackTrace traceId spanId : String) (requestContext : List (String × Value))
    (bp : BreakpointConfig) (hmax : maxCapturesReached bp = true) :
    ∀ (n : Nat) (c : ClientState),
      lookupBreakpoint c.breakpointsCache (funcName ++ ":" ++ deriveLabel funcName labelArg)
        (locationKey file line) = some bp →
      ∀ o ∈ (repeatCheckAndCaptureWithContext patterns file line funcName labelArg vars now
        stackTrace traceId spanId requestContext c n).2, o = none := by
  intro n
  induction n with
  | zero => simp [repeatCheckAndCaptureWithContext]
  | succ m ih =>
    intro c hlook o ho
    rcases List.mem_cons.mp ho with rfl | ho'
    · exact withContext_none_of_maxCaptures c patterns file line funcName labelArg vars now
        stackTrace traceId spanId requestContext bp hlook hmax
    · refine ih _ ?_ o ho'
      rw [withContext_preserves_breakpointsCache c patterns file line funcName labelArg vars
        now stackTrace traceId spanId requestContext]
      exact hlook

/-! ## Helper lemmas: auto-registration dedup -/

/-- Over any serialized interleaving of register calls, the number of
POSTs launched for a key is zero when the key is already marked and at
most (exactly, when it occurs) one otherwise. -/
theorem autoRegisterRun_count (keys : List String) :
    ∀ (cache : List String) (k : String),
      ((autoRegisterRun cache keys).2).count k =
        if k ∈ cache then 0 else if k ∈ keys then 1 else 0 := by
  induction keys with
  | nil =>
    intro cache k
    simp [autoRegisterRun]
  | cons k₀ ks ih =>
    intro cache k
    by_cases h0 : k₀ ∈ cache
    · have h0' : cache.contains k₀ = true := by simpa using h0
      have hstep : autoRegisterRun cache (k₀ :: ks) =
          ((autoRegisterRun cache ks).1, (autoRegisterRun cache ks).2) := by
        simp [autoRegisterRun, autoRegisterMark, h0]
      rw [hstep]
      rw [ih cache k]
      by_cases hk : k ∈ cache
      · simp [hk]
      · have hkk0 : k ≠ k₀ := fun h => hk (h ▸ h0)
        simp [hk, hkk0]
    · have h0' : cache.contains k₀ = false := by simpa using h0
      have hstep : autoRegisterRun cache (k₀ :: ks) =
          ((autoRegisterRun (k₀ :: cache) ks).1,
            k₀ :: (autoRegisterRun (k₀ :: cache) ks).2) := by
        simp [autoRegisterRun, autoRegisterMark, h0]
      rw [hstep]
      rw [List.count_cons, ih (k₀ :: cache) k]
      by_cases hk0 : k = k₀
      · subst hk0
        simp [h0]
      · have hk0' : ¬k₀ = k := fun h => hk0 h.symm
        by_cases hk : k ∈ cache
        · simp [hk, hk0, hk0']
        · simp [hk, hk0, hk0']

/-! ## Claim theorems -/

/-- C1: the claim says that for every config with Enabled=false in the
Registry, neither `CheckAndCapture` nor `CheckAndCaptureWithContext`
ever builds or dispatches a Snapshot.  The code falsifies the
`CheckAndCapture` half: client.go 184-227 checks existence, expiry and
capture count but never `Enabled`, so a disabled config at the matching
location key still yields a snapshot, while
`CheckAndCaptureWithContext` (client.go 269) does suppress it. -/
theorem C1_checkAndCapture_dispatches_disabled :
    bpDisabled.enabled = false ∧
    mapLookup stDisabled.breakpointsCache (locationKey "payment.go" 42) = some bpDisabled ∧
    (CheckAndCapture stDisabled sensitivePatterns "payment.go" 42 [] 0 "stack").isSome = true ∧
    (CheckAndCaptureWithContext stDisabled sensitivePatterns "payment.go" 42 "main.pay" "L"
      [] 0 "stack" "" "" []).2.2 = none := by
  decide

/-- C2: the claim says the scan is deterministic because the value
detectors are evaluated in a stable order.  The detectors live in a Go
map (client.go 419-424) whose range order is randomized, and the flag
type genuinely depends on that order: on a value matching both the
password and the api-key detector, two permutations of the same
detector map produce different flag lists (the sanitized map agrees). -/
theorem C2_flags_depend_on_pattern_order :
    sensitivePatternsAltOrder.Perm sensitivePatterns ∧
    (scanForSecurityIssues sensitivePatterns [("v", Value.str doubleSecret)]).1 =
      (scanForSecurityIssues sensitivePatternsAltOrder [("v", Value.str doubleSecret)]).1 ∧
    (scanForSecurityIssues sensitivePatterns [("v", Value.str doubleSecret)]).2 =
      [{ type := "sensitive_data_password", severity := "high", varName := "v" }] ∧
    (scanForSecurityIssues sensitivePatternsAltOrder [("v", Value.str doubleSecret)]).2 =
      [{ type := "sensitive_data_api_key", severity := "high", varName := "v" }] :=
  ⟨List.Perm.swap _ _ _, by decide, by decide, by decide⟩

/-- C3: auto-registration is at-most-once per key.  Over any serialized
interleaving of register calls (the mutex makes each check-and-mark of
client.go 328-334 atomic), the number of registration POSTs launched
for a key is 0 when the key is already marked — whatever the outcome of
earlier POSTs, since nothing (in particular not `fetchActiveBreakpoints`,
the only thing the POST goroutine calls back into) ever unmarks a key —
and exactly 1 when it is unmarked and occurs in the call sequence. -/
theorem C3_autoRegister_at_most_once (cache keys : List String) (k : String) :
    (((autoRegisterRun cache keys).2).count k =
      if k ∈ cache then 0 else if k ∈ keys then 1 else 0) ∧
    ∀ (c : ClientState) (outcome : FetchOutcome) (now : Int),
      ((fetchActiveBreakpoints c outcome now).1).registrationCache = c.registrationCache := by
  refine ⟨autoRegisterRun_count keys cache k, ?_⟩
  intro c outcome now
  rcases outcome with _ | _ | ⟨code, body⟩
  · rfl
  · rfl
  · unfold fetchActiveBreakpoints
    by_cases h : code ≠ 200
    · simp [h]
    · simp only [h, if_false]
      cases body <;> rfl

/-- C4: the claim says no call sequence is fatal, including a repeated
`Stop`.  The code falsifies it: `Stop` (client.go 92-95) closes the stop
channel unconditionally, and Go panics on closing a closed channel, so
the second `Stop` is fatal. -/
theorem C4_stop_twice_panics :
    Stop (NewSnapshotClient "key" "http://api" "svc") =
      Except.ok { NewSnapshotClient "key" "http://api" "svc" with stopChanClosed := true } ∧
    (Stop (NewSnapshotClient "key" "http://api" "svc")).bind Stop =
      Except.error "close of closed channel" :=
  ⟨rfl, rfl⟩

/-- C5: the claim says every lookup of the breakpoint cache takes the
read lock.  The code falsifies it: the lookup of `CheckAndCapture`
(client.go 186-187) reads the cache map with no lock at all, while the
lookup of `CheckAndCaptureWithContext` (client.go 254-267) is bracketed
by `RLock`/`RUnlock` and the swap of `updateBreakpointCache` (client.go
157-176) is under the write lock. -/
theorem C5_checkAndCapture_lookup_takes_no_lock :
    LockOp.rLockAcquire ∉ checkAndCaptureLookupOps ∧
    LockOp.rLockRelease ∉ checkAndCaptureLookupOps ∧
    (∀ labelKeyHit : Bool,
      LockOp.rLockAcquire ∈ checkAndCaptureWithContextLookupOps labelKeyHit ∧
      LockOp.rLockRelease ∈ checkAndCaptureWithContextLookupOps labelKeyHit) ∧
    LockOp.lockAcquire ∈ updateBreakpointCacheOps ∧
    LockOp.lockRelease ∈ updateBreakpointCacheOps := by
  decide

/-- C6: a variable whose name matches the case-insensitive keyword
pattern is mapped to "[REDACTED]" and flagged
sensitive_variable_name/medium whatever its value (the conclusion holds
for every `value`, including unserializable ones, since the name branch
of client.go 434-443 never inspects the value); any flag carrying that
name is the name flag (name match takes priority over value match); and
with distinct variable names every variable gets at most one flag. -/
theorem C6_sensitive_name_redaction (patterns : List Pattern) (vars : List (String × Value))
    (name : String) (value : Value) (hnodup : (vars.map Prod.fst).Nodup)
    (hmem : (name, value) ∈ vars) (hmatch : sensitiveNameMatch name = true) :
    mapLookup (scanForSecurityIssues patterns vars).1 name = some (Value.str "[REDACTED]") ∧
    ({ type := "sensitive_variable_name", severity := "medium", varName := name } :
      SecurityFlag) ∈ (scanForSecurityIssues patterns vars).2 ∧
    (∀ f ∈ (scanForSecurityIssues patterns vars).2, f.varName = name →
      f = { type := "sensitive_variable_name", severity := "medium", varName := name }) ∧
    (∀ n : String, ((scanForSecurityIssues patterns vars).2.filter
      (fun f => f.varName == n)).length ≤ 1) :=
  ⟨scan_lookup_redacted patterns vars name value hmem hmatch,
   scan_flag_of_nameMatch patterns vars name value hmem hmatch,
   scan_flag_unique_of_nameMatch patterns vars name hmatch,
   fun n => scan_flag_count_le_one patterns vars hnodup n⟩

/-- C6 witness: the name `apiKey` matches (it contains "key"), so its
entry is redacted and flagged, whatever pattern order is in force. -/
theorem C6_sensitive_name_redaction_witness :
    (([("apiKey", Value.str "hello")].map Prod.fst).Nodup) ∧
    ("apiKey", Value.str "hello") ∈ [("apiKey", Value.str "hello")] ∧
    sensitiveNameMatch "apiKey" = true ∧
    mapLookup (scanForSecurityIssues sensitivePatterns
      [("apiKey", Value.str "hello")]).1 "apiKey" = some (Value.str "[REDACTED]") ∧
    ({ type := "sensitive_variable_name", severity := "medium", varName := "apiKey" } :
      SecurityFlag) ∈ (scanForSecurityIssues sensitivePatterns
        [("apiKey", Value.str "hello")]).2 :=
  ⟨by decide, by decide, by decide,
   (C6_sensitive_name_redaction sensitivePatterns [("apiKey", Value.str "hello")] "apiKey"
     (Value.str "hello") (by decide) (by decide) (by decide)).1,
   (C6_sensitive_name_redaction sensitivePatterns [("apiKey", Value.str "hello")] "apiKey"
     (Value.str "hello") (by decide) (by decide) (by decide)).2.1⟩

/-- C7: with MaxCaptures = N > 0 and last-polled CaptureCount ≥ N the
capture is suppressed by both facades however often the call is
repeated before the next poll (neither facade writes the breakpoint
cache or the counts, so every repetition sees the same gate), while
MaxCaptures = 0 never trips the count gate. -/
theorem C7_max_captures_suppresses (st : ClientState) (patterns : List Pattern)
    (file : String) (line : Int) (funcName labelArg : String)
    (vars : List (String × Value)) (now : Int) (stackTrace traceId spanId : String)
    (reqCtx : List (String × Value)) (bp bp2 : BreakpointConfig)
    (h1 : mapLookup st.breakpointsCache (locationKey file line) = some bp)
    (hm1 : 0 < bp.maxCaptures) (hc1 : bp.maxCaptures ≤ bp.captureCount)
    (h2 : lookupBreakpoint st.breakpointsCache
      (funcName ++ ":" ++ deriveLabel funcName labelArg) (locationKey file line) = some bp2)
    (hm2 : 0 < bp2.maxCaptures) (hc2 : bp2.maxCaptures ≤ bp2.captureCount) :
    (∀ n : Nat, ∀ o ∈ repeatCheckAndCapture st patterns file line vars now stackTrace n,
      o = none) ∧
    (∀ n : Nat, ∀ o ∈ (repeatCheckAndCaptureWithContext patterns file line funcName labelArg
      vars now stackTrace traceId spanId reqCtx st n).2, o = none) ∧
    (∀ b : BreakpointConfig, b.maxCaptures = 0 → maxCapturesReached b = false) := by
  have hmax1 : maxCapturesReached bp = true := by simp [maxCapturesReached, hm1, hc1]
  have hmax2 : maxCapturesReached bp2 = true := by simp [maxCapturesReached, hm2, hc2]
  refine ⟨fun n => repeatCheckAndCapture_all_none st patterns file line vars now stackTrace bp
      h1 hmax1 n,
    fun n => repeatWithContext_all_none patterns file line funcName labelArg vars now
      stackTrace traceId spanId reqCtx bp2 hmax2 n st h2,
    fun b hb => by simp [maxCapturesReached, hb]⟩

/-- C7 witness: a config with MaxCaptures=3, CaptureCount=5 suppresses
both facades; a MaxCaptures=0 config never trips the count gate. -/
theorem C7_max_captures_suppresses_witness :
    mapLookup stExhausted.breakpointsCache (locationKey "payment.go" 42) = some bpExhausted ∧
    0 < bpExhausted.maxCaptures ∧ bpExhausted.maxCaptures ≤ bpExhausted.captureCount ∧
    CheckAndCapture stExhausted sensitivePatterns "payment.go" 42 [] 0 "stack" = none ∧
    (CheckAndCaptureWithContext stExhausted sensitivePatterns "payment.go" 42 "main.pay" "L"
      [] 0 "stack" "" "" []).2.2 = none ∧
    maxCapturesReached bpDisabled = false :=
  ⟨by decide, by decide, by decide,
   (C7_max_captures_suppresses stExhausted sensitivePatterns "payment.go" 42 "main.pay" "L"
     [] 0 "stack" "" "" [] bpExhausted bpExhausted (by decide) (by decide) (by decide)
     (by decide) (by decide) (by decide)).1 1 _ (List.mem_cons_self _ _),
   (C7_max_captures_suppresses stExhausted sensitivePatterns "payment.go" 42 "main.pay" "L"
     [] 0 "stack" "" "" [] bpExhausted bpExhausted (by decide) (by decide) (by decide)
     (by decide) (by decide) (by decide)).2.1 1 _ (List.mem_cons_self _ _),
   (C7_max_captures_suppresses stExhausted sensitivePatterns "payment.go" 42 "main.pay" "L"
     [] 0 "stack" "" "" [] bpExhausted bpExhausted (by decide) (by decide) (by decide)
     (by decide) (by decide) (by decide)).2.2 bpDisabled (by decide)⟩

/-- Membership in a config's generated key set, unfolded. -/
theorem cacheKeys_mem_iff (b : BreakpointConfig) (k : String) :
    k ∈ b.cacheKeys ↔
      (k = b.lineKey ∨ (b.label ≠ "" ∧ b.functionName ≠ "" ∧ k = b.labelKey)) := by
  unfold BreakpointConfig.cacheKeys
  by_cases hc : (b.label != "" && b.functionName != "") = true
  · have hand := hc
    rw [Bool.and_eq_true] at hand
    have h1 : b.label ≠ "" := by simpa using hand.1
    have h2 : b.functionName ≠ "" := by simpa using hand.2
    simp [hc, h1, h2]
  · have hc' : (b.label != "" && b.functionName != "") = false := by
      simpa using hc
    have hor : b.label = "" ∨ b.functionName = "" := by
      rcases Bool.and_eq_false_iff.mp hc' with h | h
      · left; simpa using h
      · right; simpa using h
    simp only [hc', Bool.false_eq_true, if_false, List.cons_ne_nil, List.mem_cons,
      List.not_mem_nil, or_false]
    constructor
    · exact fun hk => Or.inl hk
    · rintro (hk | ⟨h1, h2, _⟩)
      · exact hk
      · rcases hor with h | h
        · exact absurd h h1
        · exact absurd h h2

/-- C8 (amended): `updateBreakpointCache` builds the new cache solely
from the input list; a config with non-empty Label and FunctionName
appears under both its label key and its location key, and a config
without a label under its location key, provided no later config in the
list generates the same key (Go map assignment is last-writer-wins);
and every entry of the new cache is one of the input configs under one
of its own keys — in particular nothing of any previous cache survives
the swap. -/
theorem C8_updateBreakpointCache_keys (bps pre post : List BreakpointConfig)
    (bp : BreakpointConfig) (hsplit : bps = pre ++ bp :: post)
    (hfresh : ∀ b ∈ post, bp.lineKey ∉ b.cacheKeys ∧ bp.labelKey ∉ b.cacheKeys) :
    ((bp.label != "" && bp.functionName != "") = true →
      mapLookup (updateBreakpointCache bps) bp.labelKey = some bp ∧
      mapLookup (updateBreakpointCache bps) bp.lineKey = some bp) ∧
    (bp.label = "" → mapLookup (updateBreakpointCache bps) bp.lineKey = some bp) ∧
    (∀ k v, mapLookup (updateBreakpointCache bps) k = some v →
      v ∈ bps ∧ (k = v.lineKey ∨ (v.label ≠ "" ∧ v.functionName ≠ "" ∧ k = v.labelKey))) := by
  have hbase : updateBreakpointCache bps =
      post.foldl cacheStep (cacheStep (pre.foldl cacheStep []) bp) := by
    rw [hsplit]
    simp [updateBreakpointCache, List.foldl_append]
  have hline : mapLookup (updateBreakpointCache bps) bp.lineKey = some bp := by
    rw [hbase, foldl_cacheStep_lookup_of_fresh post bp.lineKey
      (fun b hb => (hfresh b hb).1) _, cacheStep_lookup]
    simp
  refine ⟨?_, fun _ => hline, ?_⟩
  · intro hcond
    refine ⟨?_, hline⟩
    rw [hbase, foldl_cacheStep_lookup_of_fresh post bp.labelKey
      (fun b hb => (hfresh b hb).2) _, cacheStep_lookup]
    by_cases heq : bp.labelKey = bp.lineKey
    · simp [heq]
    · simp [heq, hcond]
  · intro k v h
    rw [hbase] at h
    rcases foldl_cacheStep_lookup_mem post _ k v h with ⟨hmem, hkeys⟩ | hbase'
    · refine ⟨?_, (cacheKeys_mem_iff v k).mp hkeys⟩
      rw [hsplit]
      exact List.mem_append_right pre (List.mem_cons_of_mem bp hmem)
    · rw [cacheStep_lookup] at hbase'
      by_cases hl : k = bp.lineKey
      · rw [if_pos hl] at hbase'
        obtain rfl : bp = v := by injection hbase'
        refine ⟨?_, Or.inl hl⟩
        rw [hsplit]
        exact List.mem_append_right pre (List.mem_cons_self bp post)
      · rw [if_neg hl] at hbase'
        by_cases hlab : (bp.label != "" && bp.functionName != "") = true ∧ k = bp.labelKey
        · rw [if_pos hlab] at hbase'
          obtain rfl : bp = v := by injection hbase'
          have hand := hlab.1
          rw [Bool.and_eq_true] at hand
          refine ⟨?_, Or.inr ⟨by simpa using hand.1, by simpa using hand.2, hlab.2⟩⟩
          rw [hsplit]
          exact List.mem_append_right pre (List.mem_cons_self bp post)
        · rw [if_neg hlab] at hbase'
          rcases foldl_cacheStep_lookup_mem pre _ k v hbase' with ⟨hmem, hkeys⟩ | hnil
          · refine ⟨?_, (cacheKeys_mem_iff v k).mp hkeys⟩
            rw [hsplit]
            exact List.mem_append_left _ hmem
          · rw [mapLookup_nil] at hnil
            exact absurd hnil (by simp)

/-- C8 counterexample: the claim as stated fails on lists where a later
config generates the same key — here the unlabelled config at the same
file:line overwrites the labelled one's location-key entry, so the
labelled config does not appear under both its keys. -/
theorem C8_collision_counterexample :
    bpLabelled.label ≠ "" ∧ bpLabelled.functionName ≠ "" ∧
    bpUnlabelled ≠ bpLabelled ∧
    mapLookup (updateBreakpointCache [bpLabelled, bpUnlabelled]) bpLabelled.lineKey =
      some bpUnlabelled ∧
    mapLookup (updateBreakpointCache [bpLabelled, bpUnlabelled]) bpLabelled.labelKey =
      some bpLabelled := by
  decide

/-- C8 witness: on a singleton list (no collisions) the labelled config
is found under both keys, and an unlabelled config under its location key. -/
theorem C8_updateBreakpointCache_keys_witness :
    ([bpLabelled] = ([] : List BreakpointConfig) ++ bpLabelled :: []) ∧
    (bpLabelled.label != "" && bpLabelled.functionName != "") = true ∧
    bpUnlabelled.label = "" ∧
    mapLookup (updateBreakpointCache [bpLabelled]) bpLabelled.labelKey = some bpLabelled ∧
    mapLookup (updateBreakpointCache [bpLabelled]) bpLabelled.lineKey = some bpLabelled ∧
    mapLookup (updateBreakpointCache [bpUnlabelled]) bpUnlabelled.lineKey =
      some bpUnlabelled :=
  ⟨rfl, by decide, by decide,
   ((C8_updateBreakpointCache_keys [bpLabelled] [] [] bpLabelled rfl (by simp)).1
     (by decide)).1,
   ((C8_updateBreakpointCache_keys [bpLabelled] [] [] bpLabelled rfl (by simp)).1
     (by decide)).2,
   (C8_updateBreakpointCache_keys [bpUnlabelled] [] [] bpUnlabelled rfl (by simp)).2.1
     (by decide)⟩

/-- C9: whenever a poll run fails — request build error, transport
error, non-200 status, or JSON decode failure — `fetchActiveBreakpoints`
returns an error and leaves the whole client state (in particular the
breakpoint cache) exactly as it was. -/
theorem C9_fetch_failure_preserves_cache (c : ClientState) (now code : Int)
    (body : BodyParse) (hcode : code ≠ 200) :
    fetchActiveBreakpoints c FetchOutcome.transportError now = (c, some "transport error") ∧
    fetchActiveBreakpoints c FetchOutcome.requestBuildError now =
      (c, some "request build error") ∧
    (fetchActiveBreakpoints c (FetchOutcome.httpStatus code body) now).1 = c ∧
    ((fetchActiveBreakpoints c (FetchOutcome.httpStatus code body) now).2).isSome = true ∧
    fetchActiveBreakpoints c (FetchOutcome.httpStatus 200 BodyParse.decodeError) now =
      (c, some "decode error") := by
  refine ⟨rfl, rfl, ?_, ?_, ?_⟩ <;> simp [fetchActiveBreakpoints, hcode]

/-- C9 witness: a 500 response with an undecodable body leaves a fresh
client's state untouched. -/
theorem C9_fetch_failure_preserves_cache_witness :
    (500 : Int) ≠ 200 ∧
    (fetchActiveBreakpoints (NewSnapshotClient "k" "u" "svc")
      (FetchOutcome.httpStatus 500 BodyParse.decodeError) 7).1 =
      NewSnapshotClient "k" "u" "svc" ∧
    ((fetchActiveBreakpoints (NewSnapshotClient "k" "u" "svc")
      (FetchOutcome.httpStatus 500 BodyParse.decodeError) 7).2).isSome = true :=
  ⟨by decide,
   (C9_fetch_failure_preserves_cache (NewSnapshotClient "k" "u" "svc") 7 500
     BodyParse.decodeError (by decide)).2.2.1,
   (C9_fetch_failure_preserves_cache (NewSnapshotClient "k" "u" "svc") 7 500
     BodyParse.decodeError (by decide)).2.2.2.1⟩

/-- C10 (amended): an entry whose name does not match the sensitive-name
pattern and whose value fails to serialize is kept under its original
name with the type-tag placeholder, receives no flag, and the scan of
all other entries is exactly the scan of the list without it. -/
theorem C10_unserializable_placeholder (patterns : List Pattern)
    (pre post : List (String × Value)) (name typeName : String)
    (hname : sensitiveNameMatch name = false) :
    scanForSecurityIssues patterns (pre ++ (name, Value.unserializable typeName) :: post) =
      ((scanForSecurityIssues patterns pre).1 ++
        (name, Value.str ("[" ++ typeName ++ "]")) :: (scanForSecurityIssues patterns post).1,
       (scanForSecurityIssues patterns pre).2 ++ (scanForSecurityIssues patterns post).2) := by
  rw [scan_append,
    scan_cons_unserializable patterns name (Value.unserializable typeName) post hname rfl]
  rfl

/-- C10 counterexample: the claim as stated fails for an unserializable
value under a sensitively-matching name — the name branch wins, so the
entry is "[REDACTED]" (not the type-tag placeholder) and a flag is
emitted. -/
theorem C10_sensitive_name_counterexample :
    Value.serialize (Value.unserializable "chan int") = none ∧
    sensitiveNameMatch "secretKey" = true ∧
    (scanForSecurityIssues sensitivePatterns
      [("secretKey", Value.unserializable "chan int")]).1 =
      [("secretKey", Value.str "[REDACTED]")] ∧
    (scanForSecurityIssues sensitivePatterns
      [("secretKey", Value.unserializable "chan int")]).2 =
      [{ type := "sensitive_variable_name", severity := "medium", varName := "secretKey" }] := by
  decide

/-- C10 witness: an innocuously-named unserializable value becomes its
type-tag placeholder with no flag. -/
theorem C10_unserializable_placeholder_witness :
    sensitiveNameMatch "amount" = false ∧
    scanForSecurityIssues sensitivePatterns
      ([] ++ ("amount", Value.unserializable "func()") :: []) =
      ([("amount", Value.str "[func()]")], []) := by
  refine ⟨by decide, ?_⟩
  rw [C10_unserializable_placeholder sensitivePatterns [] [] "amount" "func()" (by decide)]
  rfl
